import Mathlib

/-!
Verification of the Scriberr inference-engine runtime against its
specification.  The Python sources under `asr-engines/scriberr-asr-onnx`
and `asr-engines/scriberr-diariz-torch` are embedded shallowly: machine
floats become `ℚ`, Python strings become `String`, dictionaries become
association lists, and fallible code returns `Except`/`Option`.
-/

namespace Scriberr

/-! ## Python string primitives

Models of the Python `str` operations the engines use (`str.strip`,
`str.split()` with no argument, `str.lower`, and the `int()`/`float()`
constructors on decimal literals).  They are written over `List Char`
so that concrete evaluation reduces in the kernel. -/

/-- Model of Python `str.strip()` on the character list: drop leading and
trailing whitespace. -/
def stripChars (cs : List Char) : List Char :=
  ((cs.dropWhile Char.isWhitespace).reverse.dropWhile Char.isWhitespace).reverse

/-- Model of Python `str.strip()`. -/
def pyStrip (s : String) : String := ⟨stripChars s.data⟩

/-- Helper for `pySplit`: split a character list on runs of whitespace,
accumulating the current (reversed) word. -/
def splitWsAux : List Char → List Char → List (List Char)
  | [], cur => if cur.isEmpty then [] else [cur.reverse]
  | c :: rest, cur =>
    if c.isWhitespace then
      if cur.isEmpty then splitWsAux rest []
      else cur.reverse :: splitWsAux rest []
    else splitWsAux rest (c :: cur)

/-- Model of Python `str.split()` with no separator: split on whitespace
runs, producing no empty fields. -/
def pySplit (s : String) : List String :=
  (splitWsAux s.data []).map (fun cs => ⟨cs⟩)

/-- Model of Python `str.lower()` (ASCII case folding suffices for the
keyword strings the engines compare). -/
def pyLower (s : String) : String := ⟨s.data.map Char.toLower⟩

/-- Interpret a nonempty all-digit character list as a natural number. -/
def digitsToNat : List Char → Option ℕ
  | [] => none
  | cs =>
    if cs.all Char.isDigit then
      some (cs.foldl (fun acc c => acc * 10 + (c.toNat - '0'.toNat)) 0)
    else none

/-- Model of Python `int(str)` on decimal literals: optional surrounding
whitespace, optional sign, then decimal digits; anything else raises
`ValueError`, modelled as `none`. -/
def pyParseInt (s : String) : Option ℤ :=
  match stripChars s.data with
  | '+' :: rest => (digitsToNat rest).map Int.ofNat
  | '-' :: rest => (digitsToNat rest).map (fun n => -(n : ℤ))
  | cs => (digitsToNat cs).map Int.ofNat

/-- Fractional digits to a rational in `[0, 1)`. -/
def fracDigitsToRat (cs : List Char) : Option ℚ :=
  (digitsToNat cs).map (fun n => (n : ℚ) / ((10 : ℚ) ^ cs.length))

/-- Unsigned decimal notation `digits`, `digits.digits`, `digits.` or
`.digits` to a rational. -/
def decimalToRat (cs : List Char) : Option ℚ :=
  match cs.splitOn '.' with
  | [whole] => (digitsToNat whole).map (fun n => (n : ℚ))
  | [whole, frac] =>
    match whole, frac with
    | [], [] => none
    | [], f => fracDigitsToRat f
    | w, [] => (digitsToNat w).map (fun n => (n : ℚ))
    | w, f =>
      match digitsToNat w, fracDigitsToRat f with
      | some n, some q => some ((n : ℚ) + q)
      | _, _ => none
  | _ => none

/-- Model of Python `float(str)` on plain decimal notation: optional
surrounding whitespace, optional sign, decimal digits with an optional
fractional part.  (The full Python grammar also accepts exponents and
`inf`/`nan`; the engines only ever receive plain decimals.)  Failure
models `ValueError`. -/
def pyParseFloat (s : String) : Option ℚ :=
  match stripChars s.data with
  | '+' :: rest => decimalToRat rest
  | '-' :: rest => (decimalToRat rest).map Neg.neg
  | cs => decimalToRat cs

/-- Model of Python attribute values for the duck-typed spots the
pipelines read. -/
inductive PyVal where
  | str (s : String)
  | int (n : ℤ)
  | rat (q : ℚ)
  | bool (b : Bool)
  | none
deriving Repr, DecidableEq

/-- Dictionary lookup `params.get(key)` over the flat string map carried
by a StartJob request. -/
def pyGet (m : List (String × String)) (k : String) : Option String :=
  m.lookup k

/-! ## ASR engine — `asr_engine/postprocess.py` -/

namespace Asr

/-- `postprocess.Segment`: a contiguous transcribed span.  The Python
field named `end` is rendered `endS` (`end` is a Lean keyword). -/
structure Segment where
  text : String
  startS : Option ℚ := Option.none
  endS : Option ℚ := Option.none
deriving Repr, DecidableEq

/-- `Segment.duration`: `max(0.0, end - start)` when both bounds exist. -/
def Segment.duration (s : Segment) : Option ℚ :=
  match s.startS, s.endS with
  | some a, some b => some (max 0 (b - a))
  | _, _ => Option.none

/-- One iteration of the `merge_short_segments` loop, operating on the
accumulated `merged` list.  In the source the tracked `prev` is always
the last element of `merged` (or absent when `merged` is empty). -/
def mergeStep (thr : ℚ) (maxWords : ℤ) (merged : List Segment) (seg : Segment) :
    List Segment :=
  let text := pyStrip seg.text
  if text = "" then merged
  else
    let seg1 : Segment := ⟨text, seg.startS, seg.endS⟩
    let attachByDuration :=
      match seg1.duration with
      | some d => decide (d < thr)
      | Option.none => false
    let attachByWords : Bool := decide (((pySplit text).length : ℤ) ≤ maxWords)
    match merged.getLast? with
    | some prev =>
      if attachByDuration || attachByWords then
        merged.dropLast ++
          [⟨pyStrip (prev.text ++ " " ++ seg1.text),
            prev.startS,
            match seg1.endS with
            | some e => some e
            | Option.none => prev.endS⟩]
      else merged ++ [seg1]
    | Option.none => merged ++ [seg1]

/-- `postprocess.merge_short_segments`: fold short or few-word segments
into their predecessor. -/
def merge_short_segments (segments : List Segment)
    (attach_threshold_s : ℚ := 1/4) (attach_max_words : ℤ := 2) :
    List Segment :=
  segments.foldl (mergeStep attach_threshold_s attach_max_words) []

/-! ## ASR engine — `asr_engine/params.py` -/

/-- The `pnc` parameter: one of the strings `"pnc"`/`"nopnc"`, a Python
bool, or `None`. -/
inductive Pnc where
  | strv (s : String)
  | boolv (b : Bool)
  | none
deriving Repr, DecidableEq

/-- `params._parse_bool`. -/
def parseBoolKv (value : Option String) (dflt : Bool) : Bool :=
  match value with
  | Option.none => dflt
  | some v =>
    let lv := pyLower (pyStrip v)
    lv = "1" || lv = "true" || lv = "yes" || lv = "y" || lv = "on"

/-- `params._parse_int`: `int(value)`, falling back to the default on
`ValueError`. -/
def parseIntKv (value : Option String) (dflt : Option ℤ) : Option ℤ :=
  match value with
  | Option.none => dflt
  | some v =>
    match pyParseInt v with
    | some n => some n
    | Option.none => dflt

/-- `params._parse_float`: `float(value)`, falling back to the default on
`ValueError`. -/
def parseFloatKv (value : Option String) (dflt : Option ℚ) : Option ℚ :=
  match value with
  | Option.none => dflt
  | some v =>
    match pyParseFloat v with
    | some q => some q
    | Option.none => dflt

/-- `params._parse_pnc`. -/
def parsePnc (value : Option String) : Pnc :=
  match value with
  | Option.none => Pnc.none
  | some v =>
    let lv := pyLower (pyStrip v)
    if lv = "pnc" || lv = "nopnc" then Pnc.strv lv
    else if lv = "1" || lv = "true" || lv = "yes" || lv = "y" || lv = "on" then
      Pnc.boolv true
    else if lv = "0" || lv = "false" || lv = "no" || lv = "n" || lv = "off" then
      Pnc.boolv false
    else Pnc.none

/-- Python `x or default` on an optional float: `None` and `0.0` are
falsy and yield the default. -/
def orFloat (x : Option ℚ) (d : ℚ) : ℚ :=
  match x with
  | some v => if v = 0 then d else v
  | Option.none => d

/-- Python `x or default` on an optional int: `None` and `0` are falsy
and yield the default. -/
def orInt (x : Option ℤ) (d : ℤ) : ℤ :=
  match x with
  | some v => if v = 0 then d else v
  | Option.none => d

/-- Python `x or None` on an optional string: `None` and `""` become
`None`. -/
def orNoneStr (x : Option String) : Option String :=
  match x with
  | some v => if v = "" then Option.none else some v
  | Option.none => Option.none

/-- `params.JobParams` of the ASR engine: exactly the fields the
dataclass declares (there is no `chunk_len_s`, `chunk_batch_size` or
`segment_gap_s` field). -/
structure JobParams where
  vad_preset : String := "balanced"
  vad_speech_pad_ms : Option ℤ := Option.none
  vad_min_silence_ms : Option ℤ := Option.none
  vad_min_speech_ms : Option ℤ := Option.none
  vad_max_speech_s : Option ℤ := Option.none
  include_segments : Bool := true
  include_words : Bool := true
  merge_short_segments : Bool := true
  merge_attach_threshold_s : ℚ := 1/4
  merge_attach_max_words : ℤ := 2
  sample_rate : ℤ := 16000
  language : Option String := Option.none
  target_language : Option String := Option.none
  pnc : Pnc := Pnc.none
deriving Repr, DecidableEq

/-- `JobParams.from_kv`: build typed job parameters from the flat string
map of a StartJob request. -/
def JobParams.from_kv (m : List (String × String)) : JobParams :=
  { vad_preset := (pyGet m "vad_preset").getD "balanced"
    vad_speech_pad_ms := parseIntKv (pyGet m "vad_speech_pad_ms") Option.none
    vad_min_silence_ms := parseIntKv (pyGet m "vad_min_silence_ms") Option.none
    vad_min_speech_ms := parseIntKv (pyGet m "vad_min_speech_ms") Option.none
    vad_max_speech_s := parseIntKv (pyGet m "vad_max_speech_s") Option.none
    include_segments := parseBoolKv (pyGet m "include_segments") true
    include_words := parseBoolKv (pyGet m "include_words") true
    merge_short_segments := parseBoolKv (pyGet m "merge_short_segments") true
    merge_attach_threshold_s :=
      orFloat (parseFloatKv (pyGet m "merge_attach_threshold_s") (some (1/4))) (1/4)
    merge_attach_max_words :=
      orInt (parseIntKv (pyGet m "merge_attach_max_words") (some 2)) 2
    sample_rate := orInt (parseIntKv (pyGet m "sample_rate") (some 16000)) 16000
    language := orNoneStr (pyGet m "language")
    target_language := orNoneStr (pyGet m "target_language")
    pnc := parsePnc (pyGet m "pnc") }

/-- The value of the `pnc` field as a Python attribute value. -/
def Pnc.toPyVal : Pnc → PyVal
  | Pnc.strv s => PyVal.str s
  | Pnc.boolv b => PyVal.bool b
  | Pnc.none => PyVal.none

/-- Python attribute lookup on an ASR `JobParams` instance: defined for
exactly the dataclass fields, `none` (AttributeError) otherwise. -/
def JobParams.getattr (p : JobParams) (name : String) : Option PyVal :=
  if name = "vad_preset" then some (PyVal.str p.vad_preset)
  else if name = "vad_speech_pad_ms" then
    some (p.vad_speech_pad_ms.elim PyVal.none PyVal.int)
  else if name = "vad_min_silence_ms" then
    some (p.vad_min_silence_ms.elim PyVal.none PyVal.int)
  else if name = "vad_min_speech_ms" then
    some (p.vad_min_speech_ms.elim PyVal.none PyVal.int)
  else if name = "vad_max_speech_s" then
    some (p.vad_max_speech_s.elim PyVal.none PyVal.int)
  else if name = "include_segments" then some (PyVal.bool p.include_segments)
  else if name = "include_words" then some (PyVal.bool p.include_words)
  else if name = "merge_short_segments" then some (PyVal.bool p.merge_short_segments)
  else if name = "merge_attach_threshold_s" then some (PyVal.rat p.merge_attach_threshold_s)
  else if name = "merge_attach_max_words" then some (PyVal.int p.merge_attach_max_words)
  else if name = "sample_rate" then some (PyVal.int p.sample_rate)
  else if name = "language" then some (p.language.elim PyVal.none PyVal.str)
  else if name = "target_language" then some (p.target_language.elim PyVal.none PyVal.str)
  else if name = "pnc" then some p.pnc.toPyVal
  else Option.none

/-- Python `float(x)` coercion on an attribute value. -/
def pyFloatOf : PyVal → Option ℚ
  | PyVal.rat q => some q
  | PyVal.int n => some (n : ℚ)
  | PyVal.bool b => some (if b then 1 else 0)
  | _ => Option.none

/-- Python `int(x)` coercion on an attribute value. -/
def pyIntOf : PyVal → Option ℤ
  | PyVal.int n => some n
  | PyVal.bool b => some (if b then 1 else 0)
  | _ => Option.none

/-- `backend.AsrBackend.transcribe`, lines 98-99: the pipeline computes
`chunk_len_s = max(1.0, float(params.chunk_len_s))` and
`batch_size = max(1, int(params.chunk_batch_size))`.  Attribute lookup of
a missing dataclass field raises `AttributeError`, modelled as the error
branch. -/
def transcribeChunkStep (p : JobParams) : Except String (ℚ × ℤ) :=
  match p.getattr "chunk_len_s" with
  | some v =>
    match pyFloatOf v with
    | some c =>
      match p.getattr "chunk_batch_size" with
      | some w =>
        match pyIntOf w with
        | some b => Except.ok (max 1 c, max 1 b)
        | Option.none => Except.error "TypeError"
      | Option.none => Except.error "AttributeError: chunk_batch_size"
    | Option.none => Except.error "TypeError"
  | Option.none => Except.error "AttributeError: chunk_len_s"

end Asr

/-! ## Status store — `status_store.py` (identical in both engines) -/

namespace Store

/-- `status_store.JobState`. -/
inductive JobState where
  | QUEUED
  | RUNNING
  | COMPLETED
  | FAILED
  | CANCELLED
deriving Repr, DecidableEq

/-- A terminal state. -/
def JobState.isTerminal : JobState → Bool
  | JobState.COMPLETED => true
  | JobState.FAILED => true
  | JobState.CANCELLED => true
  | _ => false

/-- `status_store.JobStatus`. -/
structure JobStatus where
  job_id : String
  state : JobState
  message : String := ""
  progress : ℚ := 0
  outputs : List (String × String) := []
  started_unix_ms : ℕ := 0
  finished_unix_ms : ℕ := 0
deriving Repr, DecidableEq

/-- The mutable state of a `JobStatusStore`: the latest status per job
id, the subscriber sinks per job id, the contents delivered to each sink
so far (each sink is a FIFO queue; its delivered history in order), and
a counter minting fresh sink identities. -/
structure StoreState where
  statuses : String → Option JobStatus
  subs : String → List ℕ
  queues : ℕ → List JobStatus
  nextSink : ℕ

/-- The store before any operation. -/
def StoreState.init : StoreState :=
  { statuses := fun _ => Option.none
    subs := fun _ => []
    queues := fun _ => []
    nextSink := 0 }

/-- The store operations a client can perform (all serialized under the
store lock in the source). -/
inductive StoreOp where
  | set (status : JobStatus)
  | subscribe (jobId : String)
  | unsubscribe (jobId : String) (sink : ℕ)
deriving Repr, DecidableEq

/-- One store operation.  `set` replaces the stored status and appends
it to the queue of every current subscriber of that job id; `subscribe`
mints a fresh sink, registers it, and pre-loads the current status when
one exists; `unsubscribe` removes the sink from the subscriber list. -/
def applyOp (s : StoreState) : StoreOp → StoreState
  | StoreOp.set st =>
    { s with
      statuses := fun j => if j = st.job_id then some st else s.statuses j
      queues := fun q =>
        if q ∈ s.subs st.job_id then s.queues q ++ [st] else s.queues q }
  | StoreOp.subscribe j =>
    { s with
      subs := fun j1 => if j1 = j then s.subs j1 ++ [s.nextSink] else s.subs j1
      queues := fun q =>
        if q = s.nextSink then
          match s.statuses j with
          | some st => [st]
          | Option.none => []
        else s.queues q
      nextSink := s.nextSink + 1 }
  | StoreOp.unsubscribe j q =>
    { s with subs := fun j1 => if j1 = j then (s.subs j1).erase q else s.subs j1 }

/-- Run a sequence of store operations. -/
def runOps (s : StoreState) (ops : List StoreOp) : StoreState :=
  ops.foldl applyOp s

/-- The statuses published for job id `j` by a sequence of operations,
in publication order. -/
def setsFor (j : String) (ops : List StoreOp) : List JobStatus :=
  ops.filterMap fun op =>
    match op with
    | StoreOp.set st => if st.job_id = j then some st else Option.none
    | _ => Option.none

/-- Store invariant: every registered sink id was minted by the
counter. -/
def SinkBound (s : StoreState) : Prop :=
  ∀ j1 i, i ∈ s.subs j1 → i < s.nextSink

/-- Sink `q` is subscribed to `j` and only to `j`, and was minted by the
counter. -/
def Tracks (j : String) (q : ℕ) (s : StoreState) : Prop :=
  q ∈ s.subs j ∧ (∀ j1, j1 ≠ j → q ∉ s.subs j1) ∧ q < s.nextSink

end Store

/-! ## Diarization engine — `diar_engine/job_runner.py` -/

namespace Diar

open Store

/-- `backend.DiarizeResult`. -/
structure DiarizeResult where
  diarization_path : String
  rttm_path : Option String
  result_path : String
  segment_count : ℕ
  audio_seconds : ℚ
  model_id : String
deriving Repr, DecidableEq

/-- How one invocation of the pipeline ends, as observed by the worker
in `JobRunner._run_job`: a normal return, the `CancelledError` raised on
a tripped cancel token, or any other exception with its message
(`str(exc)`). -/
inductive PipelineOutcome where
  | ok (result : DiarizeResult)
  | cancelled
  | failure (msg : String)
deriving Repr, DecidableEq

/-- `JobRunner._run_job`: publishes an initial RUNNING status, relays
every progress callback as a RUNNING status, catches the pipeline
outcome and publishes exactly one terminal status, and finally clears
the active-job slot.  Returns the list of statuses published by the
worker (in order) and the active-job id after the `finally` block.
`events` is the sequence of `(progress, message)` progress callbacks the
pipeline issued before finishing. -/
def runJob (jobId : String) (startMs finMs : ℕ) (events : List (ℚ × String))
    (outcome : PipelineOutcome) : List JobStatus × Option String :=
  let initial : JobStatus :=
    { job_id := jobId, state := JobState.RUNNING, started_unix_ms := startMs }
  let progressStatuses := events.map fun e =>
    { job_id := jobId, state := JobState.RUNNING, progress := e.1,
      message := e.2, started_unix_ms := startMs : JobStatus }
  let terminal : JobStatus :=
    match outcome with
    | PipelineOutcome.ok r =>
      { job_id := jobId, state := JobState.COMPLETED, progress := 1,
        outputs := [("diarization", r.diarization_path),
                    ("rttm", r.rttm_path.getD ""),
                    ("result", r.result_path)],
        started_unix_ms := startMs, finished_unix_ms := finMs }
    | PipelineOutcome.cancelled =>
      { job_id := jobId, state := JobState.CANCELLED, message := "cancelled",
        progress := 0, started_unix_ms := startMs, finished_unix_ms := finMs }
    | PipelineOutcome.failure e =>
      { job_id := jobId, state := JobState.FAILED, message := e,
        progress := 0, started_unix_ms := startMs, finished_unix_ms := finMs }
  (initial :: progressStatuses ++ [terminal], Option.none)

/-! ## Diarization engine — `diar_engine/params.py` -/

/-- `params.JobParams` of the diarization engine, with the field
defaults the dataclass declares. -/
structure JobParams where
  output_format : String := "rttm"
  device : String := "auto"
  hf_token : Option String := Option.none
  model : Option String := Option.none
  min_speakers : Option ℤ := Option.none
  max_speakers : Option ℤ := Option.none
  segmentation_onset : Option ℚ := some (1/2)
  segmentation_offset : Option ℚ := some (363/1000)
  batch_size : ℤ := 1
  streaming_mode : Bool := false
  chunk_length_s : ℚ := 30
  chunk_len : ℤ := 340
  chunk_right_context : ℤ := 40
  fifo_len : ℤ := 40
  spkcache_update_period : ℤ := 300
  exclusive : Bool := true
  segmentation_batch_size : Option ℤ := Option.none
  embedding_batch_size : Option ℤ := Option.none
  embedding_exclude_overlap : Option Bool := Option.none
  torch_threads : Option ℤ := Option.none
  torch_interop_threads : Option ℤ := Option.none
deriving Repr, DecidableEq

/-- An instance built with all dataclass defaults (a bare `JobParams()`
construction in Python). -/
def JobParams.defaults : JobParams := {}

open Asr (parseBoolKv parseIntKv parseFloatKv orInt orFloat orNoneStr) in
/-- `JobParams.from_kv` of the diarization engine. -/
def JobParams.from_kv (m : List (String × String)) : JobParams :=
  { output_format := (pyGet m "output_format").getD "rttm"
    device := (pyGet m "device").getD "auto"
    hf_token := orNoneStr (pyGet m "hf_token")
    model := orNoneStr (pyGet m "model")
    min_speakers := parseIntKv (pyGet m "min_speakers") Option.none
    max_speakers := parseIntKv (pyGet m "max_speakers") Option.none
    segmentation_onset := parseFloatKv (pyGet m "segmentation_onset") (some (1/2))
    segmentation_offset := parseFloatKv (pyGet m "segmentation_offset") (some (363/1000))
    batch_size := orInt (parseIntKv (pyGet m "batch_size") (some 1)) 1
    streaming_mode := parseBoolKv (pyGet m "streaming_mode") false
    chunk_length_s := orFloat (parseFloatKv (pyGet m "chunk_length_s") (some 30)) 30
    chunk_len := orInt (parseIntKv (pyGet m "chunk_len") (some 340)) 340
    chunk_right_context := orInt (parseIntKv (pyGet m "chunk_right_context") (some 40)) 40
    fifo_len := orInt (parseIntKv (pyGet m "fifo_len") (some 40)) 40
    spkcache_update_period :=
      orInt (parseIntKv (pyGet m "spkcache_update_period") (some 300)) 300
    exclusive := parseBoolKv (pyGet m "exclusive") false
    segmentation_batch_size := parseIntKv (pyGet m "segmentation_batch_size") Option.none
    embedding_batch_size := parseIntKv (pyGet m "embedding_batch_size") Option.none
    embedding_exclude_overlap :=
      match pyGet m "embedding_exclude_overlap" with
      | some v => some (parseBoolKv (some v) false)
      | Option.none => Option.none
    torch_threads := parseIntKv (pyGet m "torch_threads") Option.none
    torch_interop_threads := parseIntKv (pyGet m "torch_interop_threads") Option.none }

/-- `backend._run_pyannote`: the keyword arguments passed to the
pyannote pipeline call — only the non-`None` tuning knobs, and
`exclusive=True` exactly when `params.exclusive` is truthy. -/
def pyannoteDiarizationKwargs (p : JobParams) : List (String × PyVal) :=
  (match p.min_speakers with
   | some n => [("min_speakers", PyVal.int n)]
   | Option.none => []) ++
  (match p.max_speakers with
   | some n => [("max_speakers", PyVal.int n)]
   | Option.none => []) ++
  (match p.segmentation_batch_size with
   | some n => [("segmentation_batch_size", PyVal.int n)]
   | Option.none => []) ++
  (match p.embedding_batch_size with
   | some n => [("embedding_batch_size", PyVal.int n)]
   | Option.none => []) ++
  (match p.embedding_exclude_overlap with
   | some b => [("embedding_exclude_overlap", PyVal.bool b)]
   | Option.none => []) ++
  (if p.exclusive then [("exclusive", PyVal.bool true)] else [])

/-! ## Diarization engine — `diar_engine/model_manager.py` -/

/-- `model_manager.ModelSpec` (same shape in both engines). -/
structure ModelSpec where
  model_id : String
  model_name : String
  model_path : Option String := Option.none
  providers : Option (List String) := Option.none
  intra_op_threads : ℤ := 8
  vad_backend : String := "silero"
deriving Repr, DecidableEq

/-- `model_manager.LoadedModel` of the diarization engine.  The opaque
inference handle is represented by an abstract tag. -/
structure LoadedModel where
  spec : ModelSpec
  kind : String
  handle : ℕ
  loaded_at : ℕ
  token : Option String := Option.none
deriving Repr, DecidableEq

/-- The single-model slot guarded by the manager lock. -/
structure ManagerState where
  loaded : Option LoadedModel
deriving Repr, DecidableEq

/-- `ModelManager.load`: runs the loader and stores its result.  When
the loader raises (`Except.error`), the assignment to the slot is never
executed, so the slot keeps its previous content.  Both engines have the
identical body (the ASR variant merely lacks the token argument). -/
def ModelManager.load (loader : ModelSpec → Option String → Except String LoadedModel)
    (st : ManagerState) (spec : ModelSpec) (hf_token : Option String) :
    ManagerState × Except String LoadedModel :=
  match loader spec hf_token with
  | Except.ok lm => (⟨some lm⟩, Except.ok lm)
  | Except.error e => (st, Except.error e)

/-- `ModelManager.get_loaded`. -/
def ModelManager.get_loaded (st : ManagerState) : Option LoadedModel :=
  st.loaded

/-- Python truthiness of the optional `hf_token` string: `None` and the
empty string are falsy. -/
def tokenTruthy : Option String → Bool
  | some s => s ≠ ""
  | Option.none => false

/-- `ModelManager.ensure_loaded`: reload when the slot is empty, when
the requested `model_id` differs from the loaded one, or when the spec
is pyannote, a truthy token is supplied and it differs from the stored
token; otherwise return the existing model.  The third component records
whether the loader was invoked. -/
def ModelManager.ensure_loaded (loader : ModelSpec → Option String → LoadedModel)
    (st : ManagerState) (spec : ModelSpec) (hf_token : Option String) :
    ManagerState × LoadedModel × Bool :=
  match st.loaded with
  | Option.none =>
    let lm := loader spec hf_token
    (⟨some lm⟩, lm, true)
  | some cur =>
    if cur.spec.model_id ≠ spec.model_id then
      let lm := loader spec hf_token
      (⟨some lm⟩, lm, true)
    else if spec.model_id = "pyannote" && tokenTruthy hf_token &&
        cur.token ≠ hf_token then
      let lm := loader spec hf_token
      (⟨some lm⟩, lm, true)
    else (st, cur, false)

/-! ## Diarization engine — `diar_engine/server.py` StartJob -/

/-- gRPC error kinds raised through `context.abort`. -/
inductive GrpcErr where
  | invalidArgument (msg : String)
  | failedPrecondition (msg : String)
  | resourceExhausted (msg : String)
  | notFound (msg : String)
deriving Repr, DecidableEq

/-- The StartJob wire request. -/
structure StartJobRequest where
  job_id : String
  input_path : String
  output_dir : String
  model_id : String
  params : List (String × String)
deriving Repr, DecidableEq

/-- The StartJob wire response. -/
structure StartJobResponse where
  job_id : String
  accepted : Bool
  message : String
deriving Repr, DecidableEq

/-- The engine state the StartJob handler touches: the model slot and
the runner's active-job slot. -/
structure EngineState where
  loaded : Option LoadedModel
  activeJobId : Option String
deriving Repr, DecidableEq

/-- `DiarEngineService.StartJob`: aborts with `FAILED_PRECONDITION` when
no model is loaded, with `INVALID_ARGUMENT` on a `model_id` mismatch,
parses the flat params via `JobParams.from_kv` (which never raises), and
delegates to `JobRunner.start_job`, aborting with `RESOURCE_EXHAUSTED`
when a job is already active. -/
def StartJob (st : EngineState) (req : StartJobRequest) :
    EngineState × Except GrpcErr StartJobResponse :=
  match st.loaded with
  | Option.none => (st, Except.error (GrpcErr.failedPrecondition "no model loaded"))
  | some loaded =>
    if req.model_id ≠ "" && req.model_id ≠ loaded.spec.model_id then
      (st, Except.error (GrpcErr.invalidArgument "model_id mismatch"))
    else
      -- `params = JobParams.from_kv(dict(request.params))` — total, never aborts
      match st.activeJobId with
      | some _ => (st, Except.error (GrpcErr.resourceExhausted "engine busy"))
      | Option.none =>
        ({ st with activeJobId := some req.job_id },
         Except.ok ⟨req.job_id, true, "started"⟩)

/-! ## Diarization engine — `diar_engine/backend.py` segments and RTTM -/

/-- A normalized diarization segment dict as produced by
`_pyannote_segments_to_dicts` / `_sortformer_segments_to_dicts`:
keys `start`, `end`, `speaker`, `duration`, `confidence`. -/
structure DiarSeg where
  startS : ℚ
  endS : ℚ
  speaker : String
  duration : ℚ
  confidence : ℚ
deriving Repr, DecidableEq

/-- A sortformer prediction item of tuple shape `(start, end, speaker)`
(the other item shapes carry the same three fields under different
access paths). -/
structure SortTuple where
  startS : ℚ
  endS : ℚ
  speaker : String
deriving Repr, DecidableEq

/-- `_sortformer_segments_to_dicts` on tuple-shaped items: each yields a
segment dict with `duration = end - start` and `confidence = 1.0`,
sorted ascending by `start`. -/
def sortformerSegmentsToDicts (items : List SortTuple) : List DiarSeg :=
  let entries := items.map fun it =>
    { startS := it.startS, endS := it.endS, speaker := it.speaker,
      duration := it.endS - it.startS, confidence := 1 : DiarSeg }
  entries.mergeSort fun a b => decide (a.startS ≤ b.startS)

/-- One line of `diarization.rttm` as written by `_write_rttm`.  The
`.3f` format renders a float as the nearest multiple of `1/1000`
(ties at half a millisecond go to an adjacent multiple); the decimal
string denotes exactly `startMs / 1000` (resp. `durMs / 1000`).  The
constant textual fields of the line format are kept explicit. -/
structure RttmLine where
  kind : String
  stem : String
  channel : ℕ
  startMs : ℤ
  durMs : ℤ
  na1 : String
  na2 : String
  speaker : String
  na3 : String
  na4 : String
deriving Repr, DecidableEq

/-- The integer printed by Python `f"{x:.3f}"`, in thousandths. -/
def fmt3 (q : ℚ) : ℤ := round (q * 1000)

/-- `_write_rttm`: one `SPEAKER` line per segment, channel 1, start and
`end - start` formatted with three decimals, `<NA>` placeholders. -/
def writeRttm (audioStem : String) (segments : List DiarSeg) : List RttmLine :=
  segments.map fun s =>
    { kind := "SPEAKER", stem := audioStem, channel := 1,
      startMs := fmt3 s.startS, durMs := fmt3 (s.endS - s.startS),
      na1 := "<NA>", na2 := "<NA>", speaker := s.speaker,
      na3 := "<NA>", na4 := "<NA>" }

/-- Parsing an RTTM `SPEAKER` line back into a `(start, duration,
speaker)` triple: fields 4 and 5 are decimal numbers with three
fractional digits, denoting exactly their value in thousandths. -/
def parseRttmLine (l : RttmLine) : ℚ × ℚ × String :=
  ((l.startMs : ℚ) / 1000, (l.durMs : ℚ) / 1000, l.speaker)

/-- The `{start, duration, speaker}` triples of the segment dicts stored
under the `segments` key of `diarization.json` by `_build_json_payload`
(the payload embeds the segment dicts unchanged). -/
def jsonTriples (segments : List DiarSeg) : List (ℚ × ℚ × String) :=
  segments.map fun s => (s.startS, s.duration, s.speaker)

end Diar

/-! ## ASR engine — `asr_engine/backend.py` segment and word emission -/

namespace Asr

/-- A word record inside a per-chunk `segments_local` entry (the dicts
produced by `word_timestamps_from_tokens` /
`word_timestamps_from_segment` and grouped by
`split_segments_from_words`). -/
structure WordIn where
  word : String
  startS : ℚ
  endS : ℚ
deriving Repr, DecidableEq

/-- One entry of `segments_local` inside the transcribe loop: a
sub-segment with its word list. -/
structure EmittedSeg where
  text : String
  startS : ℚ
  endS : ℚ
  words : List WordIn
deriving Repr, DecidableEq

/-- One record of `words.jsonl` as assembled in the transcribe loop. -/
structure WordEntry where
  global_word_index : ℕ
  segment_index : ℕ
  word_index_in_segment : ℕ
  word : String
  startS : ℚ
  endS : ℚ
deriving Repr, DecidableEq

/-- The inner loop `for wi, wrec in enumerate(seg["words"], start=1)`:
`g` is `len(word_entries)` when the word is appended, `j` the 1-based
word index within the segment. -/
def emitWordsFrom (segIdx : ℕ) (g : ℕ) (j : ℕ) : List WordIn → List WordEntry
  | [] => []
  | w :: ws =>
    ⟨g + 1, segIdx, j, w.word, w.startS, w.endS⟩ :: emitWordsFrom segIdx (g + 1) (j + 1) ws

/-- The `include_words` branch of the transcribe loop: append each
sub-segment to the segment list (incrementing `segment_index`) and its
words to `word_entries` with dense indices. -/
def emitGo : List EmittedSeg → List Segment × List WordEntry → List Segment × List WordEntry
  | [], acc => acc
  | seg :: rest, (segs, words) =>
    let segs1 := segs ++ [⟨seg.text, some seg.startS, some seg.endS⟩]
    let words1 := words ++ emitWordsFrom segs1.length words.length 1 seg.words
    emitGo rest (segs1, words1)

/-- The segment list and word entries accumulated over the whole
transcribe loop. -/
def emitAll (l : List EmittedSeg) : List Segment × List WordEntry :=
  emitGo l ([], [])

/-- A `segments.jsonl` record (index fields only; the `start_hhmmss` /
`end_hhmmss` twins are derived display fields): `write_segments_jsonl`
numbers the final segment list with `enumerate(segments, start=1)`. -/
def segmentsJsonl (segments : List Segment) : List (ℕ × Segment) :=
  segments.enum.map fun p => (p.1 + 1, p.2)

/-- A word record lies inside a segment span (both bounds present and
containing the word's interval). -/
def containsWord (s : Segment) (w : WordEntry) : Bool :=
  match s.startS, s.endS with
  | some a, some b => decide (a ≤ w.startS) && decide (w.endS ≤ b)
  | _, _ => false

/-- Claim C6's third conjunct as a predicate on a written job: every
word's `segment_index` equals the jsonl index (1-based position) of the
segment that contains it. -/
def indicesMatchContaining (segments : List Segment) (words : List WordEntry) : Prop :=
  ∀ w ∈ words, ∀ (i : ℕ) (s : Segment), segments[i]? = some s →
    containsWord s w = true → w.segment_index = i + 1

/-- Specification of the word entries produced from segment list `l`
when `sOff` segments and `g` words have already been emitted. -/
def wordsSpec : List EmittedSeg → ℕ → ℕ → List WordEntry
  | [], _, _ => []
  | seg :: rest, sOff, g =>
    emitWordsFrom (sOff + 1) g 1 seg.words ++
      wordsSpec rest (sOff + 1) (g + seg.words.length)

/-- Number of words in the first `k` segments. -/
def priorWords (l : List EmittedSeg) (k : ℕ) : ℕ :=
  ((l.take k).map (fun seg => seg.words.length)).sum

/-- A concrete transcribe-loop input: a long first sub-segment followed
by a one-word sub-segment that the default short-segment merge folds
into it. -/
def c6Input : List EmittedSeg :=
  [⟨"this is a long sentence.", 0, 2,
    [⟨"this", 0, 1/2⟩, ⟨"is", 1/2, 1⟩, ⟨"a", 1, 5/4⟩, ⟨"long", 5/4, 3/2⟩,
     ⟨"sentence.", 3/2, 2⟩]⟩,
   ⟨"ok.", 2, 5/2, [⟨"ok.", 2, 5/2⟩]⟩]

end Asr

/-! ## Theorems -/

/-- Helper: dropping the last element of `a :: (l ++ [t])`. -/
theorem dropLast_cons_concat {α : Type} (a t : α) (l : List α) :
    (a :: (l ++ [t])).dropLast = a :: l := by
  rw [← List.cons_append, List.dropLast_concat]

/-- Helper: the last element of `a :: (l ++ [t])`. -/
theorem getLast?_cons_concat {α : Type} (a t : α) (l : List α) :
    (a :: (l ++ [t])).getLast? = some t := by
  rw [← List.cons_append, List.getLast?_concat]

/-- Claim C1: the spec claims the parsed ASR job parameters carry a
`chunk_len_s` field (default 300.0) and a `chunk_batch_size` field
(default 8).  In the code the ASR `JobParams` dataclass declares no such
fields and `from_kv` ignores those keys, so the chunked transcribe
pipeline raises `AttributeError` the moment it reads
`params.chunk_len_s` (backend.py line 98), for every params map. -/
theorem C1_chunk_params_missing (m : List (String × String)) :
    (Asr.JobParams.from_kv m).getattr "chunk_len_s" = Option.none ∧
    (Asr.JobParams.from_kv m).getattr "chunk_batch_size" = Option.none ∧
    Asr.transcribeChunkStep (Asr.JobParams.from_kv m) =
      Except.error "AttributeError: chunk_len_s" :=
  ⟨rfl, rfl, rfl⟩

/-- Claim C9: the spec and the dataclass declaration both give the
diarization `exclusive` parameter the default `true`, but `from_kv`
passes the default `False` to `_parse_bool`, so a params map omitting
the key parses to `exclusive = false` and the pyannote invocation omits
`exclusive=True`. -/
theorem C9_exclusive_default_false (m : List (String × String))
    (h : pyGet m "exclusive" = Option.none) :
    (Diar.JobParams.from_kv m).exclusive = false ∧
    Diar.JobParams.defaults.exclusive = true ∧
    (Diar.pyannoteDiarizationKwargs (Diar.JobParams.from_kv m)).lookup "exclusive" =
      Option.none := by
  have hex : (Diar.JobParams.from_kv m).exclusive = false := by
    simp [Diar.JobParams.from_kv, Asr.parseBoolKv, h]
  refine ⟨hex, rfl, ?_⟩
  simp only [Diar.pyannoteDiarizationKwargs, hex]
  rcases h1 : (Diar.JobParams.from_kv m).min_speakers with _ | n <;>
    rcases h2 : (Diar.JobParams.from_kv m).max_speakers with _ | n2 <;>
    rcases h3 : (Diar.JobParams.from_kv m).segmentation_batch_size with _ | n3 <;>
    rcases h4 : (Diar.JobParams.from_kv m).embedding_batch_size with _ | n4 <;>
    rcases h5 : (Diar.JobParams.from_kv m).embedding_exclude_overlap with _ | b5 <;>
    simp [List.lookup]

/-- Witness for C9 at the empty params map. -/
theorem C9_exclusive_default_false_witness :
    (Diar.JobParams.from_kv []).exclusive = false ∧
    Diar.JobParams.defaults.exclusive = true ∧
    (Diar.pyannoteDiarizationKwargs (Diar.JobParams.from_kv [])).lookup "exclusive" =
      Option.none :=
  C9_exclusive_default_false [] rfl

/-- Claim C3 counterexample: with a model already in the slot, a failing
load leaves the previous model loaded — `get_loaded()` does not return
none. -/
theorem C3_counterexample :
    Diar.ModelManager.get_loaded
      (Diar.ModelManager.load
        (fun _ _ => Except.error "LoadFailed: missing files")
        ⟨some ⟨⟨"pyannote", "pyannote/speaker-diarization-community-1", Option.none, Option.none, 8, "silero"⟩,
               "pyannote", 0, 0, Option.none⟩⟩
        ⟨"pyannote", "pyannote/speaker-diarization-community-1", Option.none, Option.none, 8, "silero"⟩
        Option.none).1 =
      some ⟨⟨"pyannote", "pyannote/speaker-diarization-community-1", Option.none, Option.none, 8, "silero"⟩,
            "pyannote", 0, 0, Option.none⟩ ∧
    (some ⟨⟨"pyannote", "pyannote/speaker-diarization-community-1", Option.none, Option.none, 8, "silero"⟩,
           "pyannote", 0, 0, Option.none⟩ : Option Diar.LoadedModel) ≠ Option.none :=
  ⟨rfl, by simp⟩

/-- Claim C3 (amended): when the loader raises, `ModelManager.load`
leaves the slot exactly as it was — an empty slot stays empty, and a
previously loaded model remains loaded. -/
theorem C3_load_failure_preserves_slot
    (loader : Diar.ModelSpec → Option String → Except String Diar.LoadedModel)
    (st : Diar.ManagerState) (spec : Diar.ModelSpec) (tok : Option String)
    (e : String) (h : loader spec tok = Except.error e) :
    (Diar.ModelManager.load loader st spec tok).1 = st ∧
    Diar.ModelManager.get_loaded (Diar.ModelManager.load loader st spec tok).1 =
      st.loaded := by
  unfold Diar.ModelManager.load
  rw [h]
  exact ⟨rfl, rfl⟩

/-- Witness for C3 with an empty prior slot and a failing loader. -/
theorem C3_load_failure_preserves_slot_witness :
    (Diar.ModelManager.load (fun _ _ => Except.error "auth denied")
      ⟨Option.none⟩ ⟨"sortformer", "nvidia/diar_sortformer_4spk-v1", Option.none, Option.none, 8, "silero"⟩ Option.none).1 =
      (⟨Option.none⟩ : Diar.ManagerState) ∧
    Diar.ModelManager.get_loaded
      (Diar.ModelManager.load (fun _ _ => Except.error "auth denied")
        ⟨Option.none⟩ ⟨"sortformer", "nvidia/diar_sortformer_4spk-v1", Option.none, Option.none, 8, "silero"⟩ Option.none).1 =
      Option.none :=
  C3_load_failure_preserves_slot _ _ _ _ "auth denied" rfl

/-- Claim C8 counterexample: with a pyannote model loaded under token
`"token-a"`, calling `ensure_loaded` with the same `model_id` and no
token does not invoke the loader, although the auth token has changed
(from `some "token-a"` to `none`). -/
theorem C8_counterexample :
    (Diar.ModelManager.ensure_loaded
      (fun s t => ⟨s, "pyannote", 1, 1, t⟩)
      ⟨some ⟨⟨"pyannote", "pyannote/speaker-diarization-community-1", Option.none,
              Option.none, 8, "silero"⟩, "pyannote", 0, 0, some "token-a"⟩⟩
      ⟨"pyannote", "pyannote/speaker-diarization-community-1", Option.none,
       Option.none, 8, "silero"⟩
      Option.none).2.2 = false ∧
    (some "token-a" : Option String) ≠ Option.none := by
  constructor
  · rfl
  · simp

/-- Claim C8 (amended): `ensure_loaded` is idempotent keyed by
`model_id`; it invokes the loader exactly when the slot is empty, the
`model_id` differs, or — for pyannote only — a NON-EMPTY auth token is
supplied that differs from the stored one.  A call without a token (or
with an empty token) reuses the existing model even when a token was
previously stored.  When the loader is not invoked, the slot and the
returned model are the existing ones. -/
theorem C8_ensure_loaded_keyed
    (loader : Diar.ModelSpec → Option String → Diar.LoadedModel)
    (spec : Diar.ModelSpec) (tok : Option String) (cur : Diar.LoadedModel) :
    (Diar.ModelManager.ensure_loaded loader ⟨Option.none⟩ spec tok).2.2 = true ∧
    ((Diar.ModelManager.ensure_loaded loader ⟨some cur⟩ spec tok).2.2 = true ↔
      (cur.spec.model_id ≠ spec.model_id ∨
        (spec.model_id = "pyannote" ∧ Diar.tokenTruthy tok = true ∧ cur.token ≠ tok))) ∧
    ((Diar.ModelManager.ensure_loaded loader ⟨some cur⟩ spec tok).2.2 = false →
      Diar.ModelManager.ensure_loaded loader ⟨some cur⟩ spec tok = (⟨some cur⟩, cur, false)) := by
  have hsome : Diar.ModelManager.ensure_loaded loader ⟨some cur⟩ spec tok =
      if cur.spec.model_id ≠ spec.model_id then
        (⟨some (loader spec tok)⟩, loader spec tok, true)
      else if (decide (spec.model_id = "pyannote") && Diar.tokenTruthy tok &&
          decide (cur.token ≠ tok)) = true then
        (⟨some (loader spec tok)⟩, loader spec tok, true)
      else (⟨some cur⟩, cur, false) := rfl
  refine ⟨rfl, ?_, ?_⟩
  · rw [hsome]
    split_ifs with hA hB
    · simp [hA]
    · simp only [Bool.and_eq_true, decide_eq_true_eq] at hB
      obtain ⟨⟨hp, ht⟩, hne⟩ := hB
      simp [hp, ht, hne]
    · push_neg at hA
      simp only [Bool.and_eq_true, decide_eq_true_eq, not_and] at hB
      simp only [ne_eq, hA, not_true_eq_false, false_or]
      constructor
      · intro h
        exact absurd h (by simp)
      · rintro ⟨hp, ht, hne⟩
        exact (hB ⟨hp, ht⟩) hne
  · rw [hsome]
    split_ifs with hA hB
    · intro h
      exact absurd h (by simp)
    · intro h
      exact absurd h (by simp)
    · intro _
      rfl

/-- Witness for C8: a loaded sortformer model with matching id is reused
without invoking the loader. -/
theorem C8_ensure_loaded_keyed_witness :
    Diar.ModelManager.ensure_loaded
      (fun s t => ⟨s, "sortformer", 1, 1, t⟩)
      ⟨some ⟨⟨"sortformer", "nvidia/diar_sortformer_4spk-v1", Option.none,
              Option.none, 8, "silero"⟩, "sortformer", 0, 0, Option.none⟩⟩
      ⟨"sortformer", "nvidia/diar_sortformer_4spk-v1", Option.none,
       Option.none, 8, "silero"⟩
      Option.none =
      (⟨some ⟨⟨"sortformer", "nvidia/diar_sortformer_4spk-v1", Option.none,
              Option.none, 8, "silero"⟩, "sortformer", 0, 0, Option.none⟩⟩,
       ⟨⟨"sortformer", "nvidia/diar_sortformer_4spk-v1", Option.none,
         Option.none, 8, "silero"⟩, "sortformer", 0, 0, Option.none⟩, false) :=
  (C8_ensure_loaded_keyed (fun s t => ⟨s, "sortformer", 1, 1, t⟩)
    ⟨"sortformer", "nvidia/diar_sortformer_4spk-v1", Option.none,
     Option.none, 8, "silero"⟩
    Option.none
    ⟨⟨"sortformer", "nvidia/diar_sortformer_4spk-v1", Option.none,
      Option.none, 8, "silero"⟩, "sortformer", 0, 0, Option.none⟩).2.2 rfl

/-- Claim C5: `merge_short_segments` folds a segment whose duration is
below the threshold or whose word count is at most the limit into its
predecessor — keeping the predecessor's start, taking the folded
segment's end, and appending its text — and on the spec's concrete
example it returns the expected merged list. -/
theorem C5_merge_short_segments :
    (∀ (l : List Asr.Segment) (seg : Asr.Segment) (thr : ℚ) (w : ℤ)
       (prev : Asr.Segment),
      (Asr.merge_short_segments l thr w).getLast? = some prev →
      pyStrip seg.text ≠ "" →
      ((∃ d, Asr.Segment.duration ⟨pyStrip seg.text, seg.startS, seg.endS⟩ = some d ∧
          d < thr) ∨
        ((pySplit (pyStrip seg.text)).length : ℤ) ≤ w) →
      Asr.merge_short_segments (l ++ [seg]) thr w =
        (Asr.merge_short_segments l thr w).dropLast ++
          [⟨pyStrip (prev.text ++ " " ++ pyStrip seg.text), prev.startS,
            match seg.endS with
            | some e => some e
            | Option.none => prev.endS⟩]) ∧
    Asr.merge_short_segments
      [⟨"hello", some 0, some (1/2)⟩, ⟨"world", some (1/2), some (3/5)⟩,
       ⟨"this is long", some (3/5), some 2⟩] (1/4) 2 =
      [⟨"hello world", some 0, some (3/5)⟩,
       ⟨"this is long", some (3/5), some 2⟩] := by
  constructor
  · intro l seg thr w prev hlast htext hattach
    have hfold : Asr.merge_short_segments (l ++ [seg]) thr w =
        Asr.mergeStep thr w (Asr.merge_short_segments l thr w) seg := by
      simp [Asr.merge_short_segments, List.foldl_append]
    rw [hfold]
    unfold Asr.mergeStep
    rw [if_neg htext, hlast]
    dsimp only
    have hcond :
        ((match (⟨pyStrip seg.text, seg.startS, seg.endS⟩ : Asr.Segment).duration with
          | some d => decide (d < thr)
          | Option.none => false) ||
          decide (((pySplit (pyStrip seg.text)).length : ℤ) ≤ w)) = true := by
      rcases hattach with ⟨d, hd, hdlt⟩ | hw
      · rw [hd]
        simp [hdlt]
      · simp [hw]
    rw [if_pos hcond]
  · with_unfolding_all decide

/-- Witness for C5: folding the short segment `"world"` into the
predecessor `"hello"`. -/
theorem C5_merge_short_segments_witness :
    Asr.merge_short_segments
        ([⟨"hello", some 0, some (1/2)⟩] ++ [⟨"world", some (1/2), some (3/5)⟩])
        (1/4) 2 =
      (Asr.merge_short_segments [⟨"hello", some 0, some (1/2)⟩] (1/4) 2).dropLast ++
        [⟨pyStrip ("hello" ++ " " ++ pyStrip "world"), some 0, some (3/5)⟩] :=
  C5_merge_short_segments.1
    [⟨"hello", some 0, some (1/2)⟩] ⟨"world", some (1/2), some (3/5)⟩ (1/4) 2
    ⟨"hello", some 0, some (1/2)⟩
    (by with_unfolding_all decide)
    (by decide)
    (Or.inr (by decide))

/-- Claim C2: for every run of the worker, the statuses it publishes are
an initial RUNNING, one RUNNING per progress callback, and exactly one
terminal status determined by the pipeline outcome — COMPLETED with
progress 1, the three populated outputs and the finish time on normal
return; CANCELLED with message "cancelled" on the cancellation error;
FAILED with the error text on any other exception — and afterwards the
active-job id is cleared.  The pipeline outcome type is total, so no
exception escapes the worker. -/
theorem C2_run_job_terminal (jobId : String) (startMs finMs : ℕ)
    (events : List (ℚ × String)) (outcome : Diar.PipelineOutcome) :
    (Diar.runJob jobId startMs finMs events outcome).2 = Option.none ∧
    (∀ s ∈ (Diar.runJob jobId startMs finMs events outcome).1.dropLast,
      s.state = Store.JobState.RUNNING ∧ s.state.isTerminal = false) ∧
    ∃ term, (Diar.runJob jobId startMs finMs events outcome).1.getLast? = some term ∧
      term.state.isTerminal = true ∧
      (∀ res, outcome = Diar.PipelineOutcome.ok res →
        term.state = Store.JobState.COMPLETED ∧ term.progress = 1 ∧
        term.outputs = [("diarization", res.diarization_path),
                        ("rttm", res.rttm_path.getD ""),
                        ("result", res.result_path)] ∧
        term.finished_unix_ms = finMs) ∧
      (outcome = Diar.PipelineOutcome.cancelled →
        term.state = Store.JobState.CANCELLED ∧ term.message = "cancelled") ∧
      (∀ e, outcome = Diar.PipelineOutcome.failure e →
        term.state = Store.JobState.FAILED ∧ term.message = e) := by
  unfold Diar.runJob
  dsimp only
  refine ⟨rfl, ?_, ?_⟩
  · intro s hs
    rw [List.dropLast_concat] at hs
    rcases List.mem_cons.mp hs with h | h
    · subst h
      exact ⟨rfl, rfl⟩
    · obtain ⟨e, _, he⟩ := List.mem_map.mp h
      subst he
      exact ⟨rfl, rfl⟩
  · refine ⟨_, List.getLast?_concat _, ?_, ?_, ?_, ?_⟩
    · cases outcome <;> rfl
    · intro res hres
      subst hres
      exact ⟨rfl, rfl, rfl, rfl⟩
    · intro hres
      subst hres
      exact ⟨rfl, rfl⟩
    · intro e hres
      subst hres
      exact ⟨rfl, rfl⟩

/-- Witness for C2 at a concrete successful run. -/
theorem C2_run_job_terminal_witness :
    ∃ term, (Diar.runJob "job-1" 10 20 [((1 : ℚ)/2, "RUNNING")]
        (Diar.PipelineOutcome.ok
          ⟨"/out/diarization.json", some "/out/diarization.rttm",
           "/out/result.json", 3, 42, "pyannote"⟩)).1.getLast? = some term ∧
      term.state = Store.JobState.COMPLETED ∧ term.progress = 1 ∧
      term.outputs = [("diarization", "/out/diarization.json"),
                      ("rttm", "/out/diarization.rttm"),
                      ("result", "/out/result.json")] ∧
      term.finished_unix_ms = 20 := by
  obtain ⟨_, _, term, hlast, _, hok, _, _⟩ :=
    C2_run_job_terminal "job-1" 10 20 [((1 : ℚ)/2, "RUNNING")]
      (Diar.PipelineOutcome.ok
        ⟨"/out/diarization.json", some "/out/diarization.rttm",
         "/out/result.json", 3, 42, "pyannote"⟩)
  obtain ⟨hstate, hprog, houts, hfin⟩ := hok _ rfl
  exact ⟨term, hlast, hstate, hprog, houts, hfin⟩

/-- Claim C10 counterexample: with a model loaded and the runner idle, a
StartJob request whose params map binds the numeric key `min_speakers`
to the non-numeric string `"abc"` is ACCEPTED — the service returns ok
and the job is started with the malformed value silently replaced by the
default `None`; no `InvalidArgument` is surfaced. -/
theorem C10_counterexample :
    (Diar.StartJob
      ⟨some ⟨⟨"pyannote", "pyannote/speaker-diarization-community-1", Option.none,
              Option.none, 8, "silero"⟩, "pyannote", 0, 0, Option.none⟩,
       Option.none⟩
      ⟨"job-1", "/in.wav", "/out", "", [("min_speakers", "abc")]⟩).2 =
      Except.ok ⟨"job-1", true, "started"⟩ ∧
    (Diar.StartJob
      ⟨some ⟨⟨"pyannote", "pyannote/speaker-diarization-community-1", Option.none,
              Option.none, 8, "silero"⟩, "pyannote", 0, 0, Option.none⟩,
       Option.none⟩
      ⟨"job-1", "/in.wav", "/out", "", [("min_speakers", "abc")]⟩).1.activeJobId =
      some "job-1" ∧
    (Diar.JobParams.from_kv [("min_speakers", "abc")]).min_speakers = Option.none :=
  ⟨rfl, rfl, rfl⟩

/-- Claim C10 (amended): with a model loaded, an idle runner and a
matching (or empty) `model_id`, StartJob accepts the request regardless
of malformed param values — `from_kv` never raises, and a numeric key
bound to a non-numeric string silently parses to its default — so no
`InvalidArgument` is surfaced and the job is started. -/
theorem C10_malformed_params_accepted (st : Diar.EngineState)
    (req : Diar.StartJobRequest) (lm : Diar.LoadedModel)
    (h1 : st.loaded = some lm) (h2 : st.activeJobId = Option.none)
    (h3 : req.model_id = "" ∨ req.model_id = lm.spec.model_id) :
    (Diar.StartJob st req).2 = Except.ok ⟨req.job_id, true, "started"⟩ ∧
    (Diar.StartJob st req).1.activeJobId = some req.job_id ∧
    (∀ s, pyGet req.params "min_speakers" = some s → pyParseInt s = Option.none →
      (Diar.JobParams.from_kv req.params).min_speakers = Option.none) := by
  obtain ⟨stl, sta⟩ := st
  cases stl with
  | none => cases h1
  | some lm1 =>
    cases h1
    subst h2
    have hmismatch :
        (decide (req.model_id ≠ "") && decide (req.model_id ≠ lm.spec.model_id)) = false := by
      rcases h3 with h | h <;> simp [h]
    have hstep : Diar.StartJob ⟨some lm, Option.none⟩ req =
        (if (decide (req.model_id ≠ "") && decide (req.model_id ≠ lm.spec.model_id)) = true then
          (⟨some lm, Option.none⟩,
            Except.error (Diar.GrpcErr.invalidArgument "model_id mismatch"))
        else (⟨some lm, some req.job_id⟩,
            Except.ok ⟨req.job_id, true, "started"⟩)) := rfl
    have hres : Diar.StartJob ⟨some lm, Option.none⟩ req =
        (⟨some lm, some req.job_id⟩, Except.ok ⟨req.job_id, true, "started"⟩) := by
      rw [hstep, hmismatch]
      simp
    refine ⟨by rw [hres], by rw [hres], ?_⟩
    intro s hs hparse
    simp [Diar.JobParams.from_kv, Asr.parseIntKv, hs, hparse]

/-- Witness for C10 at the concrete malformed request. -/
theorem C10_malformed_params_accepted_witness :
    (Diar.StartJob
      ⟨some ⟨⟨"sortformer", "nvidia/diar_sortformer_4spk-v1", Option.none,
              Option.none, 8, "silero"⟩, "sortformer", 0, 0, Option.none⟩,
       Option.none⟩
      ⟨"job-9", "/in.wav", "/out", "sortformer", [("batch_size", "not-a-number")]⟩).2 =
      Except.ok ⟨"job-9", true, "started"⟩ ∧
    (Diar.StartJob
      ⟨some ⟨⟨"sortformer", "nvidia/diar_sortformer_4spk-v1", Option.none,
              Option.none, 8, "silero"⟩, "sortformer", 0, 0, Option.none⟩,
       Option.none⟩
      ⟨"job-9", "/in.wav", "/out", "sortformer", [("batch_size", "not-a-number")]⟩).1.activeJobId =
      some "job-9" ∧
    (∀ s, pyGet [("batch_size", "not-a-number")] "min_speakers" = some s →
      pyParseInt s = Option.none →
      (Diar.JobParams.from_kv [("batch_size", "not-a-number")]).min_speakers =
        Option.none) :=
  C10_malformed_params_accepted
    ⟨some ⟨⟨"sortformer", "nvidia/diar_sortformer_4spk-v1", Option.none,
            Option.none, 8, "silero"⟩, "sortformer", 0, 0, Option.none⟩,
     Option.none⟩
    ⟨"job-9", "/in.wav", "/out", "sortformer", [("batch_size", "not-a-number")]⟩
    ⟨⟨"sortformer", "nvidia/diar_sortformer_4spk-v1", Option.none,
      Option.none, 8, "silero"⟩, "sortformer", 0, 0, Option.none⟩
    rfl rfl (Or.inr rfl)

/-- Helper: a value printed with three decimals differs from the
original by at most half a thousandth, hence at most one millisecond. -/
theorem fmt3_close (q : ℚ) : |((Diar.fmt3 q : ℤ) : ℚ) / 1000 - q| ≤ 1/1000 := by
  unfold Diar.fmt3
  have h : |q * 1000 - ((round (q * 1000) : ℤ) : ℚ)| ≤ 1/2 := abs_sub_round (q * 1000)
  have heq : ((round (q * 1000) : ℤ) : ℚ) / 1000 - q =
      (((round (q * 1000) : ℤ) : ℚ) - q * 1000) / 1000 := by ring
  rw [heq, abs_div, abs_sub_comm]
  rw [show |(1000 : ℚ)| = 1000 by norm_num]
  rw [div_le_iff₀ (by norm_num : (0:ℚ) < 1000)]
  calc |q * 1000 - ((round (q * 1000) : ℤ) : ℚ)| ≤ 1/2 := h
    _ ≤ 1/1000 * 1000 := by norm_num

/-- Claim C7: every RTTM line written for a diarization segment list has
the fixed `SPEAKER <stem> 1 .. <NA> <NA> <speaker> <NA> <NA>` shape, and
parsing the lines recovers the `(start, duration, speaker)` triples of
the segments stored in `diarization.json` up to 1-ms rounding — given
the invariant, established by the segment converters (shown here for the
sortformer normalizer), that each stored `duration` equals
`end - start`. -/
theorem C7_rttm_roundtrip :
    (∀ (items : List Diar.SortTuple),
      ∀ s ∈ Diar.sortformerSegmentsToDicts items, s.duration = s.endS - s.startS) ∧
    ∀ (stem : String) (segs : List Diar.DiarSeg),
      (∀ s ∈ segs, s.duration = s.endS - s.startS) →
      (∀ line ∈ Diar.writeRttm stem segs,
        line.kind = "SPEAKER" ∧ line.stem = stem ∧ line.channel = 1 ∧
        line.na1 = "<NA>" ∧ line.na2 = "<NA>" ∧ line.na3 = "<NA>" ∧
        line.na4 = "<NA>") ∧
      List.Forall₂ (fun (p j : ℚ × ℚ × String) =>
          |p.1 - j.1| ≤ 1/1000 ∧ |p.2.1 - j.2.1| ≤ 1/1000 ∧ p.2.2 = j.2.2)
        ((Diar.writeRttm stem segs).map Diar.parseRttmLine)
        (Diar.jsonTriples segs) := by
  constructor
  · intro items s hs
    unfold Diar.sortformerSegmentsToDicts at hs
    rw [List.mem_mergeSort] at hs
    obtain ⟨it, _, rfl⟩ := List.mem_map.mp hs
    rfl
  · intro stem segs hdur
    constructor
    · intro line hline
      obtain ⟨s, _, rfl⟩ := List.mem_map.mp hline
      exact ⟨rfl, rfl, rfl, rfl, rfl, rfl, rfl⟩
    · revert hdur
      induction segs with
      | nil =>
        intro _
        simp [Diar.writeRttm, Diar.jsonTriples]
      | cons s rest ih =>
        intro hdur
        have hs := hdur s (List.mem_cons_self s rest)
        simp only [Diar.writeRttm, Diar.jsonTriples, List.map_cons] at *
        refine List.Forall₂.cons ⟨?_, ?_, rfl⟩
          (ih (fun x hx => hdur x (List.mem_cons_of_mem s hx)))
        · exact fmt3_close s.startS
        · show |((Diar.fmt3 (s.endS - s.startS) : ℤ) : ℚ) / 1000 - s.duration| ≤ 1/1000
          rw [hs]
          exact fmt3_close (s.endS - s.startS)

/-- Witness for C7 at a one-segment list satisfying the duration
invariant. -/
theorem C7_rttm_roundtrip_witness :
    (∀ line ∈ Diar.writeRttm "jfk" [⟨0, 3/2, "speaker_1", 3/2, 1⟩],
      line.kind = "SPEAKER" ∧ line.stem = "jfk" ∧ line.channel = 1 ∧
      line.na1 = "<NA>" ∧ line.na2 = "<NA>" ∧ line.na3 = "<NA>" ∧
      line.na4 = "<NA>") ∧
    List.Forall₂ (fun (p j : ℚ × ℚ × String) =>
        |p.1 - j.1| ≤ 1/1000 ∧ |p.2.1 - j.2.1| ≤ 1/1000 ∧ p.2.2 = j.2.2)
      ((Diar.writeRttm "jfk" [⟨0, 3/2, "speaker_1", 3/2, 1⟩]).map Diar.parseRttmLine)
      (Diar.jsonTriples [⟨0, 3/2, "speaker_1", 3/2, 1⟩]) :=
  C7_rttm_roundtrip.2 "jfk" [⟨0, 3/2, "speaker_1", 3/2, 1⟩]
    (by
      intro s hs
      rw [List.mem_singleton] at hs
      subst hs
      norm_num)

namespace Store

/-- Helper: every store operation preserves the sink-counter bound. -/
theorem applyOp_sinkBound {s : StoreState} (hs : SinkBound s) (op : StoreOp) :
    SinkBound (applyOp s op) := by
  cases op with
  | set st =>
    intro j1 i hi
    exact hs j1 i hi
  | subscribe j2 =>
    intro j1 i hi
    simp only [applyOp] at hi
    by_cases hj : j1 = j2
    · rw [if_pos hj] at hi
      rcases List.mem_append.mp hi with h | h
      · exact Nat.lt_succ_of_lt (hs j1 i h)
      · rw [List.mem_singleton] at h
        subst h
        exact Nat.lt_succ_self _
    · rw [if_neg hj] at hi
      exact Nat.lt_succ_of_lt (hs j1 i hi)
  | unsubscribe j2 q2 =>
    intro j1 i hi
    simp only [applyOp] at hi
    by_cases hj : j1 = j2
    · rw [if_pos hj] at hi
      exact hs j1 i (List.mem_of_mem_erase hi)
    · rw [if_neg hj] at hi
      exact hs j1 i hi

/-- Helper: the sink bound is preserved by any operation sequence. -/
theorem runOps_sinkBound_of {s : StoreState} (hs : SinkBound s)
    (ops : List StoreOp) : SinkBound (runOps s ops) := by
  induction ops generalizing s with
  | nil => exact hs
  | cons op rest ih => exact ih (applyOp_sinkBound hs op)

/-- Helper: every state reached from the initial store satisfies the
sink bound. -/
theorem runOps_sinkBound (ops : List StoreOp) :
    SinkBound (runOps StoreState.init ops) := by
  refine runOps_sinkBound_of ?_ ops
  intro j1 i hi
  simp [StoreState.init] at hi

/-- Helper: an operation other than unsubscribing `q` from `j` keeps `q`
tracking `j` and appends to the queue of `q` exactly the status a `set`
for `j` publishes. -/
theorem tracks_applyOp {j : String} {q : ℕ} {s : StoreState} (ht : Tracks j q s)
    (op : StoreOp) (hop : op ≠ StoreOp.unsubscribe j q) :
    Tracks j q (applyOp s op) ∧
    (applyOp s op).queues q = s.queues q ++
      (match op with
       | StoreOp.set st => if st.job_id = j then [st] else []
       | _ => []) := by
  obtain ⟨hin, honly, hlt⟩ := ht
  cases op with
  | set st =>
    refine ⟨⟨hin, honly, hlt⟩, ?_⟩
    simp only [applyOp]
    by_cases hj : st.job_id = j
    · rw [if_pos (by rw [hj]; exact hin), if_pos hj]
    · rw [if_neg (fun hmem => honly st.job_id hj hmem), if_neg hj, List.append_nil]
  | subscribe j2 =>
    have hne : q ≠ s.nextSink := Nat.ne_of_lt hlt
    refine ⟨⟨?_, ?_, Nat.lt_succ_of_lt hlt⟩, ?_⟩
    · simp only [applyOp]
      by_cases hj : j = j2
      · rw [if_pos hj]
        exact List.mem_append_left _ hin
      · rw [if_neg hj]
        exact hin
    · intro j1 hj1
      simp only [applyOp]
      by_cases hj : j1 = j2
      · rw [if_pos hj]
        intro hmem
        rcases List.mem_append.mp hmem with h | h
        · exact honly j1 hj1 h
        · rw [List.mem_singleton] at h
          exact hne h
      · rw [if_neg hj]
        exact honly j1 hj1
    · simp only [applyOp]
      rw [if_neg hne, List.append_nil]
  | unsubscribe j2 q2 =>
    refine ⟨⟨?_, ?_, hlt⟩, by simp [applyOp]⟩
    · simp only [applyOp]
      by_cases hj : j = j2
      · rw [if_pos hj]
        have hq2 : q ≠ q2 := by
          intro hqq
          exact hop (by rw [← hj, ← hqq])
        exact (List.mem_erase_of_ne hq2).mpr hin
      · rw [if_neg hj]
        exact hin
    · intro j1 hj1
      simp only [applyOp]
      by_cases hj : j1 = j2
      · rw [if_pos hj]
        intro hmem
        exact honly j1 hj1 (List.mem_of_mem_erase hmem)
      · rw [if_neg hj]
        exact honly j1 hj1

/-- Helper: as long as `q` stays subscribed to `j`, running any
operation sequence appends to the delivered queue of `q` exactly the
statuses set for `j`, in order. -/
theorem runOps_queue {j : String} {q : ℕ} (ops : List StoreOp) :
    ∀ s : StoreState, Tracks j q s →
    (∀ op ∈ ops, op ≠ StoreOp.unsubscribe j q) →
    (runOps s ops).queues q = s.queues q ++ setsFor j ops := by
  induction ops with
  | nil =>
    intro s _ _
    simp [runOps, setsFor]
  | cons op rest ih =>
    intro s ht hops
    have hop : op ≠ StoreOp.unsubscribe j q := hops op (List.mem_cons_self op rest)
    obtain ⟨ht1, hq1⟩ := tracks_applyOp ht op hop
    have hrec := ih (applyOp s op) ht1
      (fun o ho => hops o (List.mem_cons_of_mem op ho))
    have hstep : runOps s (op :: rest) = runOps (applyOp s op) rest := rfl
    rw [hstep, hrec, hq1, List.append_assoc]
    congr 1
    cases op with
    | set st =>
      by_cases hj : st.job_id = j
      · simp [setsFor, hj]
      · simp [setsFor, hj]
    | subscribe j2 => simp [setsFor]
    | unsubscribe j2 q2 => simp [setsFor]

end Store

/-- Claim C4: after any operation history, a newly subscribed sink for
`job_id` `j` first receives the currently stored status when one exists,
and then — as long as it is not unsubscribed — exactly the statuses
subsequently set for `j`, in the order of the `set` calls.  Since the
delivered tail `setsFor j ops2` is the same for every subscriber, all
subscribers of `j` share one per-id total order. -/
theorem C4_subscribe_replay_order (ops1 : List Store.StoreOp) (j : String)
    (ops2 : List Store.StoreOp)
    (h : ∀ op ∈ ops2,
      op ≠ Store.StoreOp.unsubscribe j
        (Store.runOps Store.StoreState.init ops1).nextSink) :
    (Store.runOps
        (Store.applyOp (Store.runOps Store.StoreState.init ops1)
          (Store.StoreOp.subscribe j)) ops2).queues
        (Store.runOps Store.StoreState.init ops1).nextSink =
      (match (Store.runOps Store.StoreState.init ops1).statuses j with
       | some st => [st]
       | Option.none => []) ++ Store.setsFor j ops2 := by
  set s1 := Store.runOps Store.StoreState.init ops1 with hs1
  have hbound : Store.SinkBound s1 := Store.runOps_sinkBound ops1
  have htracks : Store.Tracks j s1.nextSink
      (Store.applyOp s1 (Store.StoreOp.subscribe j)) := by
    refine ⟨?_, ?_, ?_⟩
    · simp [Store.applyOp]
    · intro j1 hj1
      simp only [Store.applyOp]
      rw [if_neg hj1]
      intro hmem
      exact absurd (hbound j1 s1.nextSink hmem) (Nat.lt_irrefl _)
    · simp [Store.applyOp]
  rw [Store.runOps_queue ops2 _ htracks h]
  congr 1
  simp only [Store.applyOp, if_pos rfl]
  cases s1.statuses j <;> rfl

/-- Witness for C4: a QUEUED status stored before the subscription is
replayed first, followed by the two later sets for the same job id (a
set for another id and another subscription do not interfere). -/
theorem C4_subscribe_replay_order_witness :
    (Store.runOps
        (Store.applyOp
          (Store.runOps Store.StoreState.init
            [Store.StoreOp.set ⟨"job-1", Store.JobState.QUEUED, "", 0, [], 5, 0⟩])
          (Store.StoreOp.subscribe "job-1"))
        [Store.StoreOp.set ⟨"job-1", Store.JobState.RUNNING, "", 0, [], 5, 0⟩,
         Store.StoreOp.set ⟨"job-2", Store.JobState.RUNNING, "", 0, [], 6, 0⟩,
         Store.StoreOp.subscribe "job-2",
         Store.StoreOp.set ⟨"job-1", Store.JobState.COMPLETED, "", 1, [], 5, 9⟩]).queues
        (Store.runOps Store.StoreState.init
          [Store.StoreOp.set ⟨"job-1", Store.JobState.QUEUED, "", 0, [], 5, 0⟩]).nextSink =
      (match (Store.runOps Store.StoreState.init
          [Store.StoreOp.set ⟨"job-1", Store.JobState.QUEUED, "", 0, [], 5, 0⟩]).statuses
          "job-1" with
       | some st => [st]
       | Option.none => []) ++
        Store.setsFor "job-1"
          [Store.StoreOp.set ⟨"job-1", Store.JobState.RUNNING, "", 0, [], 5, 0⟩,
           Store.StoreOp.set ⟨"job-2", Store.JobState.RUNNING, "", 0, [], 6, 0⟩,
           Store.StoreOp.subscribe "job-2",
           Store.StoreOp.set ⟨"job-1", Store.JobState.COMPLETED, "", 1, [], 5, 9⟩] :=
  C4_subscribe_replay_order
    [Store.StoreOp.set ⟨"job-1", Store.JobState.QUEUED, "", 0, [], 5, 0⟩]
    "job-1"
    [Store.StoreOp.set ⟨"job-1", Store.JobState.RUNNING, "", 0, [], 5, 0⟩,
     Store.StoreOp.set ⟨"job-2", Store.JobState.RUNNING, "", 0, [], 6, 0⟩,
     Store.StoreOp.subscribe "job-2",
     Store.StoreOp.set ⟨"job-1", Store.JobState.COMPLETED, "", 1, [], 5, 9⟩]
    (by
      intro op hop
      fin_cases hop <;> simp)

namespace Asr

/-- Helper: emission preserves the number of words. -/
theorem emitWordsFrom_length (ws : List WordIn) :
    ∀ segIdx g j, (emitWordsFrom segIdx g j ws).length = ws.length := by
  induction ws with
  | nil => intro _ _ _; rfl
  | cons w rest ih =>
    intro segIdx g j
    simp [emitWordsFrom, ih]

/-- Helper: closed form of the transcribe emission loop. -/
theorem emitGo_eq (l : List EmittedSeg) :
    ∀ (segs : List Segment) (words : List WordEntry),
    emitGo l (segs, words) =
      (segs ++ l.map (fun seg => ⟨seg.text, some seg.startS, some seg.endS⟩),
       words ++ wordsSpec l segs.length words.length) := by
  induction l with
  | nil =>
    intro segs words
    simp [emitGo, wordsSpec]
  | cons seg rest ih =>
    intro segs words
    rw [emitGo]
    rw [ih]
    simp [wordsSpec, emitWordsFrom_length, List.append_assoc, Nat.add_comm]

/-- Helper: the global indices of one emitted word group are the
consecutive naturals starting after the words already emitted. -/
theorem emitWordsFrom_globals (ws : List WordIn) :
    ∀ segIdx g j, (emitWordsFrom segIdx g j ws).map
      (fun w => w.global_word_index) = List.range' (g + 1) ws.length := by
  induction ws with
  | nil => intro _ _ _; rfl
  | cons w rest ih =>
    intro segIdx g j
    simp only [emitWordsFrom, List.map_cons, ih, List.length_cons]
    rw [List.range'_succ]

/-- Helper: the per-segment word indices of one emitted group count up
from the start index. -/
theorem emitWordsFrom_wordIdx (ws : List WordIn) :
    ∀ segIdx g j, (emitWordsFrom segIdx g j ws).map
      (fun w => w.word_index_in_segment) = List.range' j ws.length := by
  induction ws with
  | nil => intro _ _ _; rfl
  | cons w rest ih =>
    intro segIdx g j
    simp only [emitWordsFrom, List.map_cons, ih, List.length_cons]
    rw [List.range'_succ]

/-- Helper: emission keeps each word payload. -/
theorem emitWordsFrom_payload (ws : List WordIn) :
    ∀ segIdx g j, (emitWordsFrom segIdx g j ws).map
      (fun w => (w.word, w.startS, w.endS)) =
      ws.map (fun ww => (ww.word, ww.startS, ww.endS)) := by
  induction ws with
  | nil => intro _ _ _; rfl
  | cons w rest ih =>
    intro segIdx g j
    simp only [emitWordsFrom, List.map_cons, ih]

/-- Helper: every word of one emitted group carries that group's segment
index. -/
theorem emitWordsFrom_segIdx (ws : List WordIn) :
    ∀ segIdx g j, ∀ w ∈ emitWordsFrom segIdx g j ws, w.segment_index = segIdx := by
  induction ws with
  | nil => intro _ _ _ w hw; cases hw
  | cons w rest ih =>
    intro segIdx g j x hx
    rcases List.mem_cons.mp hx with h | h
    · subst h; rfl
    · exact ih segIdx (g+1) (j+1) x h

/-- Helper: the global indices over the whole emission are consecutive. -/
theorem wordsSpec_globals (l : List EmittedSeg) :
    ∀ sOff g, (wordsSpec l sOff g).map (fun w => w.global_word_index) =
      List.range' (g + 1) ((l.map (fun seg => seg.words.length)).sum) := by
  induction l with
  | nil => intro _ _; rfl
  | cons seg rest ih =>
    intro sOff g
    simp only [wordsSpec, List.map_append, emitWordsFrom_globals, ih,
      List.map_cons, List.sum_cons]
    rw [show g + seg.words.length + 1 = (g + 1) + seg.words.length by omega]
    have h := List.range'_append (g + 1) seg.words.length
      ((rest.map (fun seg => seg.words.length)).sum) 1
    simp only [one_mul] at h
    exact h.trans (by
      rw [Nat.add_comm ((List.map (fun seg => seg.words.length) rest).sum)
        seg.words.length])

/-- Helper: all emitted segment indices exceed the starting offset. -/
theorem wordsSpec_segIdx_lb (l : List EmittedSeg) :
    ∀ sOff g, ∀ w ∈ wordsSpec l sOff g, sOff + 1 ≤ w.segment_index := by
  induction l with
  | nil => intro _ _ w hw; cases hw
  | cons seg rest ih =>
    intro sOff g w hw
    rcases List.mem_append.mp hw with h | h
    · rw [emitWordsFrom_segIdx seg.words (sOff + 1) g 1 w h]
    · have := ih (sOff + 1) (g + seg.words.length) w h
      omega

/-- Helper: filtering the emitted words by one segment index yields
exactly that segment's emitted group. -/
theorem wordsSpec_filter (l : List EmittedSeg) :
    ∀ sOff g k (h : k < l.length),
      (wordsSpec l sOff g).filter (fun w => w.segment_index == sOff + k + 1) =
        emitWordsFrom (sOff + k + 1) (g + priorWords l k) 1 (l.get ⟨k, h⟩).words := by
  induction l with
  | nil => intro _ _ k h; cases h
  | cons seg rest ih =>
    intro sOff g k h
    simp only [wordsSpec, List.filter_append]
    cases k with
    | zero =>
      have hA : (emitWordsFrom (sOff + 1) g 1 seg.words).filter
          (fun w => w.segment_index == sOff + 0 + 1) =
          emitWordsFrom (sOff + 1) g 1 seg.words := by
        apply List.filter_eq_self.mpr
        intro w hw
        rw [emitWordsFrom_segIdx seg.words (sOff + 1) g 1 w hw]
        simp
      have hB : (wordsSpec rest (sOff + 1) (g + seg.words.length)).filter
          (fun w => w.segment_index == sOff + 0 + 1) = [] := by
        apply List.filter_eq_nil_iff.mpr
        intro w hw
        have := wordsSpec_segIdx_lb rest (sOff + 1) (g + seg.words.length) w hw
        simp only [beq_iff_eq]
        omega
      rw [hA, hB, List.append_nil]
      simp [priorWords]
    | succ k1 =>
      have hA : (emitWordsFrom (sOff + 1) g 1 seg.words).filter
          (fun w => w.segment_index == sOff + (k1 + 1) + 1) = [] := by
        apply List.filter_eq_nil_iff.mpr
        intro w hw
        rw [emitWordsFrom_segIdx seg.words (sOff + 1) g 1 w hw]
        simp only [beq_iff_eq]
        omega
      have hk1 : k1 < rest.length := by
        simpa using Nat.lt_of_succ_lt_succ h
      have hB := ih (sOff + 1) (g + seg.words.length) k1 hk1
      rw [hA, List.nil_append]
      rw [show sOff + (k1 + 1) + 1 = (sOff + 1) + k1 + 1 by omega, hB]
      have hpw : priorWords (seg :: rest) (k1 + 1) =
          seg.words.length + priorWords rest k1 := by
        simp [priorWords]
      rw [hpw]
      congr 1
      omega

end Asr

/-- Claim C6 counterexample: with the default `merge_short_segments`
post-processing enabled, a job whose second one-word sub-segment gets
folded into its predecessor writes a `words.jsonl` entry with
`segment_index = 2` while `segments.jsonl` holds a single merged segment
(index 1) that time-contains the word — so word `segment_index` values
do not match the containing segment's index. -/
theorem C6_counterexample :
    ¬ Asr.indicesMatchContaining
        (Asr.merge_short_segments (Asr.emitAll Asr.c6Input).1 (1/4) 2)
        (Asr.emitAll Asr.c6Input).2 := by
  intro hmatch
  have hw : (⟨6, 2, 1, "ok.", 2, 5/2⟩ : Asr.WordEntry) ∈
      (Asr.emitAll Asr.c6Input).2 := by
    with_unfolding_all decide
  have hget : (Asr.merge_short_segments (Asr.emitAll Asr.c6Input).1 (1/4) 2)[0]? =
      some ⟨"this is a long sentence. ok.", some 0, some (5/2)⟩ := by
    with_unfolding_all decide
  have hc : Asr.containsWord
      (⟨"this is a long sentence. ok.", some 0, some (5/2)⟩ : Asr.Segment)
      ⟨6, 2, 1, "ok.", 2, 5/2⟩ = true := by
    with_unfolding_all decide
  have h2 := hmatch ⟨6, 2, 1, "ok.", 2, 5/2⟩ hw 0 _ hget hc
  exact absurd h2 (by decide)

/-- Claim C6 (amended): over the transcribe emission loop, the
`global_word_index` values are the dense range `1..N`; the segment list
is the emitted sub-segments in order (so with `merge_short_segments`
disabled the jsonl index of segment `k` is `k+1`); and the word entries
filed under `segment_index = k+1` are exactly the words of the `k`-th
emitted segment with dense `word_index_in_segment` values `1..M`.  When
merging rewrites the segment list, the stored `segment_index` values may
no longer match `segments.jsonl` (see the counterexample). -/
theorem C6_word_indices (l : List Asr.EmittedSeg) :
    ((Asr.emitAll l).2.map (fun w => w.global_word_index) =
      List.range' 1 (Asr.emitAll l).2.length) ∧
    ((Asr.emitAll l).1 =
      l.map fun seg => ⟨seg.text, some seg.startS, some seg.endS⟩) ∧
    ∀ k (h : k < l.length),
      (((Asr.emitAll l).2.filter (fun w => w.segment_index == k + 1)).map
        (fun w => w.word_index_in_segment) =
        List.range' 1 (l.get ⟨k, h⟩).words.length) ∧
      (((Asr.emitAll l).2.filter (fun w => w.segment_index == k + 1)).map
        (fun w => (w.word, w.startS, w.endS)) =
        (l.get ⟨k, h⟩).words.map fun ww => (ww.word, ww.startS, ww.endS)) := by
  have he : Asr.emitAll l =
      (l.map (fun seg => ⟨seg.text, some seg.startS, some seg.endS⟩),
       Asr.wordsSpec l 0 0) := by
    unfold Asr.emitAll
    rw [Asr.emitGo_eq]
    simp
  have hlen : (Asr.wordsSpec l 0 0).length =
      (l.map (fun seg => seg.words.length)).sum := by
    have := congrArg List.length (Asr.wordsSpec_globals l 0 0)
    simpa using this
  refine ⟨?_, ?_, ?_⟩
  · rw [he]
    dsimp only
    rw [hlen, Asr.wordsSpec_globals]
  · rw [he]
  · intro k h
    rw [he]
    dsimp only
    have hf := Asr.wordsSpec_filter l 0 0 k h
    simp only [Nat.zero_add] at hf
    rw [hf, Asr.emitWordsFrom_wordIdx, Asr.emitWordsFrom_payload]
    exact ⟨rfl, rfl⟩

/-- Witness for C6 at the concrete two-segment input, segment `k = 0`. -/
theorem C6_word_indices_witness :
    (((Asr.emitAll Asr.c6Input).2.filter (fun w => w.segment_index == 0 + 1)).map
      (fun w => w.word_index_in_segment) =
      List.range' 1 (Asr.c6Input.get ⟨0, by decide⟩).words.length) ∧
    (((Asr.emitAll Asr.c6Input).2.filter (fun w => w.segment_index == 0 + 1)).map
      (fun w => (w.word, w.startS, w.endS)) =
      (Asr.c6Input.get ⟨0, by decide⟩).words.map
        fun ww => (ww.word, ww.startS, ww.endS)) :=
  (C6_word_indices Asr.c6Input).2.2 0 (by decide)

end Scriberr
